import Mathlib

/-!
Verification of the video-streaming service core against its specification.

The definitions below are a shallow embedding of the Go source:
  * `internal/service/transcoding_service.go` (pipeline orchestrator, HLS
    packaging, master-manifest writer),
  * `internal/handler/streaming_handler.go` (playlist cache and serving),
  * `internal/handler/admin_handler.go` (admin retry),
  * `internal/handler/upload_handler.go` and
    `internal/service/upload_service.go` (upload path),
  * the queue client and task handlers (`internal/queue` and the queue
    client file), and
  * the upload validator (`pkg/validator`) and the Postgres video
    repository.

External effects are made explicit: the database row for one video is a
`Video` value, the filesystem is the list of paths of existing files, the
Redis playlist cache is an association list, and the outcomes of the
external media tool (ffprobe / ffmpeg) are inputs to the model.
Machine integers stay well within 64 bits everywhere, so `Nat`/`Int`
arithmetic coincides with the Go arithmetic.
-/

namespace VideoStreaming

/-! ## Data model (internal/domain/video.go) -/

inductive VideoStatus where
  | uploading
  | processing
  | ready
  | failed
deriving DecidableEq, Repr

structure Video where
  id : String
  filePath : String
  status : VideoStatus
  transcodingProgress : Nat
  availableQualities : List String
  thumbnailPath : Option String
  hlsMasterPath : Option String
  hlsReady : Bool
  streamingProtocol : String
  duration : Nat
  originalResolution : String
deriving DecidableEq, Repr

/-- From domain/video.go `MarkAsProcessing`: the domain entity transition
into `processing` resets the transcoding progress to 0.  (The orchestrator
never calls this method; it goes through the repository instead.) -/
def Video.markAsProcessing (v : Video) : Video :=
  { v with status := .processing, transcodingProgress := 0 }

/-! ## Video repository (PostgresVideoRepository)

Each mutation mirrors exactly the column list of its SQL UPDATE statement
(`updated_at` refreshes are not modelled; no claim concerns timestamps). -/

/-- `UPDATE videos SET status = $1 ... WHERE id = $2` — only the status
column changes. -/
def updateStatus (v : Video) (st : VideoStatus) : Video :=
  { v with status := st }

/-- `UPDATE videos SET transcoding_progress = $1 ... WHERE id = $2`. -/
def updateProgress (v : Video) (p : Nat) : Video :=
  { v with transcodingProgress := p }

/-- `UPDATE videos SET duration = $1 ... WHERE id = $2`. -/
def updateDuration (v : Video) (d : Nat) : Video :=
  { v with duration := d }

/-- `UPDATE videos SET original_resolution = $1 ... WHERE id = $2`. -/
def updateResolution (v : Video) (r : String) : Video :=
  { v with originalResolution := r }

/-- `MarkAsReady`: sets status, available_qualities, thumbnail_path and
processed_at — it does not touch transcoding_progress. -/
def markAsReady (v : Video) (qualities : List String) (thumbnailPath : String) : Video :=
  { v with status := .ready, availableQualities := qualities,
           thumbnailPath := some thumbnailPath }

/-- `MarkAsFailed`: sets only the status column to `failed`. -/
def markAsFailed (v : Video) : Video :=
  { v with status := .failed }

/-- `UpdateHLSInfo`: sets hls_master_path, hls_ready and
streaming_protocol = "hls". -/
def updateHLSInfo (v : Video) (masterPath : String) (ready : Bool) : Video :=
  { v with hlsMasterPath := some masterPath, hlsReady := ready,
           streamingProtocol := "hls" }

/-! ## Quality catalog (transcoding_service.go `qualitySpecs`) -/

structure QualitySpec where
  name : String
  width : Nat
  height : Nat
  bitrate : String
  maxRate : String
  bufSize : String
  fps : Nat
deriving DecidableEq, Repr

/-- The Go map `qualitySpecs`; indexing a Go map with a missing key yields
the zero value, hence the final default. -/
def qualitySpecs (q : String) : QualitySpec :=
  if q = "360p" then ⟨"360p", 640, 360, "800k", "900k", "1800k", 30⟩
  else if q = "480p" then ⟨"480p", 854, 480, "1400k", "1500k", "3000k", 30⟩
  else if q = "720p" then ⟨"720p", 1280, 720, "2800k", "3000k", "6000k", 30⟩
  else if q = "1080p" then ⟨"1080p", 1920, 1080, "5000k", "5500k", "11000k", 60⟩
  else ⟨"", 0, 0, "", "", "", 0⟩

/-- `bandwidthMap` from `GenerateMasterPlaylist` (zero value on a miss). -/
def bandwidthMap (q : String) : Nat :=
  if q = "360p" then 800000
  else if q = "480p" then 1400000
  else if q = "720p" then 2800000
  else if q = "1080p" then 5000000
  else 0

/-- `resolutionMap` from `GenerateMasterPlaylist` (zero value on a miss). -/
def resolutionMap (q : String) : String :=
  if q = "360p" then "640x360"
  else if q = "480p" then "854x480"
  else if q = "720p" then "1280x720"
  else if q = "1080p" then "1920x1080"
  else ""

/-! ## Paths

Go's `filepath.Join` concatenates with "/" and runs `Clean`.  For every
path built by this code base the only effect of `Clean` is to strip a
leading "./" (no "..", no empty or slash-terminated components occur). -/

def pathClean (p : String) : String :=
  match p.data with
  | '.' :: '/' :: rest => String.mk rest
  | _ => p

def joinSep : List String → String
  | [] => ""
  | [s] => s
  | s :: rest => s ++ "/" ++ joinSep rest

def filepathJoin (elems : List String) : String :=
  pathClean (joinSep elems)

/-- The filesystem: the list of paths of files that exist. -/
abbrev FS := List String

/-! ## Job queue client (queue client file and internal/queue/tasks.go) -/

structure VideoProcessingPayload where
  videoID : String
  qualities : List String
  priority : Int
deriving DecidableEq, Repr

/-- The options an enqueue operation attaches to a task. -/
structure TaskSpec where
  taskType : String
  queue : String
  maxRetry : Nat
  timeoutSeconds : Nat
  videoID : String
  qualities : List String
deriving DecidableEq, Repr

/-- `getQueueName` from the queue client. -/
def getQueueName (priority : Int) : String :=
  if priority ≥ 2 then "critical"
  else if priority ≤ -1 then "low"
  else "default"

/-- `EnqueueVideoProcessing`: fixed qualities list, MaxRetry(3),
Timeout(1 hour), queue from `getQueueName`. -/
def enqueueVideoProcessing (videoID : String) (priority : Int) : TaskSpec :=
  { taskType := "video:process"
    queue := getQueueName priority
    maxRetry := 3
    timeoutSeconds := 3600
    videoID := videoID
    qualities := ["360p", "480p", "720p", "1080p"] }

/-- `EnqueueThumbnailGeneration`: MaxRetry(2), Timeout(5 minutes),
queue "default". -/
def enqueueThumbnailGeneration (videoID : String) : TaskSpec :=
  { taskType := "video:thumbnail"
    queue := "default"
    maxRetry := 2
    timeoutSeconds := 300
    videoID := videoID
    qualities := [] }

/-! ## Go errors

`GoErr` models the error values this code constructs: `fmtError` is a
`fmt.Errorf` with an optional `%w`-wrapped inner error, and `skipRetry`
is the `asynq.SkipRetry` sentinel.  The asynq worker re-enqueues a failed
task unless the returned error wraps `asynq.SkipRetry`
(`errors.Is(err, SkipRetry)`), which `isSkipRetry` decides. -/

inductive GoErr where
  | fmtError (msg : String) (wrapped : Option GoErr)
  | skipRetry
deriving Repr

def isSkipRetry : GoErr → Bool
  | .skipRetry => true
  | .fmtError _ none => false
  | .fmtError _ (some e) => isSkipRetry e

/-! ## External tool outcomes and storage configuration -/

structure VideoMetadata where
  duration : Nat
  width : Nat
  height : Nat
deriving DecidableEq, Repr

/-- Outcomes of the external media-tool invocations during one processing
attempt: `probe` is the `ExtractMetadata` result (`none` = failure or
timeout), `transcodeOk q` whether `transcodeVideo` for quality `q` exits
zero, `hlsOk q` whether `ConvertToHLS` for `q` succeeds (including its
one retry and its playlist/segment post-checks), and `thumbnailOk`
whether `generateThumbnail` succeeds. -/
structure ToolEnv where
  probe : Option VideoMetadata
  transcodeOk : String → Bool
  hlsOk : String → Bool
  thumbnailOk : Bool

structure StorageCfg where
  uploadPath : String
  thumbnailPath : String
  transcodedPath : String
deriving DecidableEq, Repr

/-- The storage block of `config.Load` with no environment overrides. -/
def defaultStorage : StorageCfg :=
  { uploadPath := "./web/uploads"
    thumbnailPath := "./web/uploads/thumbnails"
    transcodedPath := "./web/uploads/transcoded" }

/-! ## Derived-artifact paths (transcoding_service.go) -/

def variantPlaylistPath (transcodedPath vid q : String) : String :=
  filepathJoin [transcodedPath, vid, "hls", q, "playlist.m3u8"]

def hlsSegmentPath (transcodedPath vid q seg : String) : String :=
  filepathJoin [transcodedPath, vid, "hls", q, seg]

def masterPlaylistPath (transcodedPath vid : String) : String :=
  filepathJoin [transcodedPath, vid, "hls", "master.m3u8"]

/-! ## Master manifest writer (GenerateMasterPlaylist) -/

/-- The two `Fprintf` lines emitted for one included quality. -/
def streamInfEntry (q : String) : String :=
  "#EXT-X-STREAM-INF:BANDWIDTH=" ++ toString (bandwidthMap q) ++
    ",RESOLUTION=" ++ resolutionMap q ++ "\n" ++ q ++ "/playlist.m3u8\n"

/-- The quality loop of `GenerateMasterPlaylist`: a quality whose variant
playlist is absent from disk is skipped, every other one appends its two
lines, in the order of the argument list. -/
def masterPlaylistBody (transcodedPath vid : String) (fs : FS) : List String → String
  | [] => ""
  | q :: rest =>
      (if fs.contains (variantPlaylistPath transcodedPath vid q)
        then streamInfEntry q else "")
        ++ masterPlaylistBody transcodedPath vid fs rest

/-- The full file content `GenerateMasterPlaylist` writes (two `Fprintln`
header lines, then the quality loop). -/
def generateMasterPlaylistContent (transcodedPath vid : String)
    (qualities : List String) (fs : FS) : String :=
  "#EXTM3U\n" ++ "#EXT-X-VERSION:3\n" ++
    masterPlaylistBody transcodedPath vid fs qualities

/-- The qualities whose lines the master ends up containing. -/
def includedQualities (transcodedPath vid : String)
    (qualities : List String) (fs : FS) : List String :=
  qualities.filter (fun q => fs.contains (variantPlaylistPath transcodedPath vid q))

/-! ## Pipeline orchestrator (TranscodingService.ProcessVideo)

The database row, the filesystem and the sequence of progress values
passed to `UpdateProgress` are threaded explicitly.  Repository calls and
local file writes are assumed to succeed (their errors are only logged by
the Go code, except where noted); the fallible external-tool calls come
from `ToolEnv`. -/

structure ProcState where
  video : Video
  fs : FS
  trace : List Nat
deriving DecidableEq, Repr

structure ProcResult where
  state : ProcState
  transcoded : List String
  hlsQualities : List String
  error : Option GoErr
deriving Repr

/-- The hardcoded list `qualities := []string{"360p","480p","720p","1080p"}`
of `ProcessVideo` (the job payload's list is not consulted). -/
def qualityList : List String := ["360p", "480p", "720p", "1080p"]

/-- `totalSteps := len(qualities) + 2` with the fixed four-quality list. -/
def totalSteps : Nat := 6

/-- `int(float64(i) / float64(totalSteps) * 100)`: for `i ≤ 5` the float64
computation truncates to 0, 16, 33, 50, 66, 83, which equals `i * 100 / 6`
in integer arithmetic. -/
def progressAt (i : Nat) : Nat := i * 100 / totalSteps

structure LoopAcc where
  video : Video
  fs : FS
  trace : List Nat
  transcoded : List String
deriving Repr

/-- One iteration of the transcode loop: skip (plain `continue`) when the
probed height is below the catalog height; otherwise persist the progress
for index `i`, then transcode — appending the output file and the quality
on success, only logging on failure. -/
def transcodeStep (env : ToolEnv) (height : Nat) (outputDir : String)
    (acc : LoopAcc) (i : Nat) (q : String) : LoopAcc :=
  if height < (qualitySpecs q).height then acc
  else
    let acc' : LoopAcc :=
      { acc with video := updateProgress acc.video (progressAt i),
                 trace := acc.trace ++ [progressAt i] }
    if env.transcodeOk q then
      { acc' with fs := acc'.fs ++ [filepathJoin [outputDir, q ++ ".mp4"]],
                  transcoded := acc'.transcoded ++ [q] }
    else acc'

def transcodeLoop (env : ToolEnv) (height : Nat) (outputDir : String) :
    List (Nat × String) → LoopAcc → LoopAcc
  | [], acc => acc
  | (i, q) :: rest, acc =>
    transcodeLoop env height outputDir rest (transcodeStep env height outputDir acc i q)

/-- The HLS stage: for each transcoded quality run `ConvertToHLS`; a
success leaves the variant playlist and at least one segment on disk and
appends the quality to `hlsQualities`; a failure is logged and skipped. -/
def hlsLoop (env : ToolEnv) (transcodedPath vid : String) :
    List String → FS → FS × List String
  | [], fs => (fs, [])
  | q :: rest, fs =>
    if env.hlsOk q then
      let fs' := fs ++ [variantPlaylistPath transcodedPath vid q,
                        hlsSegmentPath transcodedPath vid q "segment_000.ts"]
      let r := hlsLoop env transcodedPath vid rest fs'
      (r.1, q :: r.2)
    else hlsLoop env transcodedPath vid rest fs

/-- `ProcessVideo`, straight-line transcription.  The caller has already
loaded the video row (`s.video`); `videoID` is its id string. -/
def processVideo (env : ToolEnv) (storage : StorageCfg) (videoID : String)
    (s : ProcState) : ProcResult :=
  let v := s.video
  if v.status ≠ .uploading ∧ v.status ≠ .failed then
    { state := s, transcoded := [], hlsQualities := [],
      error := some (.fmtError "video status is not uploading or failed" none) }
  else
    let v1 := updateStatus v .processing
    match env.probe with
    | none =>
      { state := { s with video := markAsFailed v1 },
        transcoded := [], hlsQualities := [],
        error := some (.fmtError "failed to extract metadata" none) }
    | some md =>
      let v2 := updateDuration v1 md.duration
      let v3 := updateResolution v2 (toString md.width ++ "x" ++ toString md.height)
      let outputDir := filepathJoin [storage.transcodedPath, videoID]
      let acc := transcodeLoop env md.height outputDir qualityList.enum
        { video := v3, fs := s.fs, trace := s.trace, transcoded := [] }
      if acc.transcoded = [] then
        { state := { video := markAsFailed acc.video, fs := acc.fs, trace := acc.trace },
          transcoded := [], hlsQualities := [],
          error := some (.fmtError "failed to transcode any quality" none) }
      else
        let v4 := updateProgress acc.video (progressAt 4)
        let trace4 := acc.trace ++ [progressAt 4]
        let hls := hlsLoop env storage.transcodedPath videoID acc.transcoded acc.fs
        let afterMaster :=
          if hls.2 ≠ [] then
            (updateHLSInfo v4 ("/uploads/processed/" ++ videoID ++ "/hls/master.m3u8") true,
             hls.1 ++ [masterPlaylistPath storage.transcodedPath videoID])
          else (v4, hls.1)
        let v5 := updateProgress afterMaster.1 (progressAt 5)
        let trace5 := trace4 ++ [progressAt 5]
        let afterThumb :=
          if env.thumbnailOk then
            (filepathJoin ["thumbnails", videoID ++ ".jpg"],
             afterMaster.2 ++ [filepathJoin [storage.thumbnailPath, videoID ++ ".jpg"]])
          else ("", afterMaster.2)
        let v6 := markAsReady v5 acc.transcoded afterThumb.1
        let v7 := updateProgress v6 100
        { state := { video := v7, fs := afterThumb.2, trace := trace5 ++ [100] },
          transcoded := acc.transcoded, hlsQualities := hls.2, error := none }

/-- The worker's `video:process` handler (`ProcessTask`): it parses the
payload, logs it, and calls `ProcessVideo` with the video id only — the
payload's `qualities` list is never passed on.  A non-nil error is wrapped
with `fmt.Errorf("process video: %w", err)` and returned to asynq. -/
def processTask (env : ToolEnv) (storage : StorageCfg)
    (payload : VideoProcessingPayload) (s : ProcState) : ProcResult :=
  let r := processVideo env storage payload.videoID s
  match r.error with
  | none => r
  | some e => { r with error := some (.fmtError "process video" (some e)) }

/-! ## Admin retry (AdminHandler.RetryVideo) -/

structure RetryResult where
  video : Video
  httpStatus : Nat
  enqueued : List TaskSpec
deriving Repr

/-- `RetryVideo` for a loaded video: reject unless status is `failed`;
else set status to `uploading` (only that column) and enqueue a
`video:process` job with priority 1.  `enqueueOk` is the queue client's
outcome. -/
def retryVideo (v : Video) (enqueueOk : Bool) : RetryResult :=
  if v.status ≠ .failed then
    { video := v, httpStatus := 400, enqueued := [] }
  else
    let v' := updateStatus v .uploading
    if enqueueOk then
      { video := v', httpStatus := 200, enqueued := [enqueueVideoProcessing v'.id 1] }
    else
      { video := v', httpStatus := 500, enqueued := [] }

/-! ## Playlist cache and master-manifest serving (StreamingHandler) -/

/-- A Redis string entry: key, value, TTL in seconds. -/
abbrev Cache := List (String × String × Nat)

def cacheGet (c : Cache) (k : String) : Option String :=
  (c.find? (fun e => e.1 = k)).map (fun e => e.2.1)

def cacheSet (c : Cache) (k v : String) (ttl : Nat) : Cache :=
  (k, v, ttl) :: c.filter (fun e => e.1 ≠ k)

structure HttpResp where
  status : Nat
  errorCode : Option String
  body : String
  contentType : String
  cacheControl : String
deriving DecidableEq, Repr

/-- `servePlaylistContent`: 200 with manifest MIME type and a one-hour
public cache header. -/
def servePlaylistContent (content : String) : HttpResp :=
  { status := 200, errorCode := none, body := content,
    contentType := "application/vnd.apple.mpegurl",
    cacheControl := "public, max-age=3600" }

def httpError (status : Nat) (code : String) : HttpResp :=
  { status := status, errorCode := some code, body := "",
    contentType := "", cacheControl := "" }

/-- The hardcoded read path of `ServeMasterPlaylist`:
`filepath.Join("./web/uploads/processed", id, "hls", "master.m3u8")`. -/
def serveMasterReadPath (vid : String) : String :=
  filepathJoin ["./web/uploads/processed", vid, "hls", "master.m3u8"]

/-- The cache key of the master manifest. -/
def masterCacheKey (vid : String) : String :=
  "playlist:" ++ vid ++ ":master"

/-- The miss branch of `ServeMasterPlaylist`: read the manifest from disk
(`fsContent` maps an existing file's path to its content); on success
populate the cache with a one-hour TTL — the `Set` error is discarded, so
a failed store (`setOk = false`) leaves the response unchanged. -/
def serveMasterFromDisk (vid : String) (cache : Cache)
    (fsContent : String → Option String) (setOk : Bool) : HttpResp × Cache :=
  match fsContent (serveMasterReadPath vid) with
  | none => (httpError 404 "PLAYLIST_NOT_FOUND", cache)
  | some content =>
      (servePlaylistContent content,
       if setOk then cacheSet cache (masterCacheKey vid) content 3600 else cache)

/-- `ServeMasterPlaylist` for a syntactically valid id: load the row,
require the HLS flag and path, then `if err == nil && cached != ""` serve
the cached text, else fall through to disk. -/
def serveMasterPlaylist (videoRow : Option Video) (vid : String)
    (cache : Cache) (fsContent : String → Option String) (setOk : Bool) :
    HttpResp × Cache :=
  match videoRow with
  | none => (httpError 404 "NOT_FOUND", cache)
  | some video =>
      if video.hlsReady = false ∨ video.hlsMasterPath = none then
        (httpError 404 "HLS_NOT_READY", cache)
      else
        match cacheGet cache (masterCacheKey vid) with
        | some cached =>
            if cached ≠ "" then (servePlaylistContent cached, cache)
            else serveMasterFromDisk vid cache fsContent setOk
        | none => serveMasterFromDisk vid cache fsContent setOk

/-! ## Upload endpoint (UploadHandler.Upload, UploadService.UploadVideo) -/

inductive UploadErr where
  | fileTooLarge
  | invalidFormat
  | invalidTitle
  | internal
deriving DecidableEq, Repr

structure UploadResp where
  httpStatus : Nat
  errorCode : Option String
  videoID : Option String
deriving DecidableEq, Repr

/-- The video row `UploadVideo` constructs and persists on success:
status is always `uploading`; the HLS fields keep their zero values. -/
def uploadServiceRow (id filePath : String) : Video :=
  { id := id, filePath := filePath, status := .uploading,
    transcodingProgress := 0, availableQualities := [],
    thumbnailPath := none, hlsMasterPath := none, hlsReady := false,
    streamingProtocol := "", duration := 0, originalResolution := "" }

/-- The upload endpoint after form parsing: `serviceResult` is
`UploadVideo`'s outcome, `enqueueOk` the queue client's.  An enqueue
failure is only logged; the 201 Created response is sent regardless and
no task reaches the queue. -/
def uploadEndpoint (serviceResult : Except UploadErr Video) (enqueueOk : Bool) :
    UploadResp × List TaskSpec :=
  match serviceResult with
  | .error .fileTooLarge =>
      ({ httpStatus := 413, errorCode := some "FILE_TOO_LARGE", videoID := none }, [])
  | .error .invalidFormat =>
      ({ httpStatus := 400, errorCode := some "INVALID_FORMAT", videoID := none }, [])
  | .error .invalidTitle =>
      ({ httpStatus := 400, errorCode := some "VALIDATION_ERROR", videoID := none }, [])
  | .error .internal =>
      ({ httpStatus := 500, errorCode := some "INTERNAL_ERROR", videoID := none }, [])
  | .ok video =>
      let tasks := if enqueueOk then [enqueueVideoProcessing video.id 0] else []
      ({ httpStatus := 201, errorCode := none, videoID := some video.id }, tasks)

/-! ## Upload validator (pkg/validator) -/

def videoMagicMp4 : List Nat := [0x00, 0x00, 0x00, 0x18, 0x66, 0x74, 0x79, 0x70]

def videoMagicWebm : List Nat := [0x1A, 0x45, 0xDF, 0xA3]

def videoMagicAvi : List Nat := [0x52, 0x49, 0x46, 0x46]

/-- The inner loop of `isVideoFile`: `magic` (first argument) matches when
the buffer starts with it, byte for byte, at offset 0. -/
def bytesMatch : List Nat → List Nat → Bool
  | [], _ => true
  | _ :: _, [] => false
  | m :: ms, b :: bs => (b = m) && bytesMatch ms bs

/-- `isVideoFile`: reject buffers shorter than 8 bytes, then try each of
the three magic prefixes at offset 0. -/
def isVideoFile (buf : List Nat) : Bool :=
  if buf.length < 8 then false
  else bytesMatch videoMagicMp4 buf || bytesMatch videoMagicWebm buf ||
       bytesMatch videoMagicAvi buf

/-- Go's `filepath.Ext` on the reversed character list: collect until the
final dot; a path separator ends the search with no extension. -/
def fileExtRev : List Char → List Char → String
  | [], _ => ""
  | c :: rest, acc =>
      if c = '/' then ""
      else if c = '.' then String.mk ('.' :: acc)
      else fileExtRev rest (c :: acc)

def fileExt (name : String) : String := fileExtRev name.data.reverse []

/-- ASCII lowercasing (Go's `strings.ToLower`; the allowed extensions are
all ASCII, where the two agree). -/
def toLowerChar (c : Char) : Char :=
  if 'A' ≤ c ∧ c ≤ 'Z' then Char.ofNat (c.toNat + 32) else c

def lowerString (s : String) : String := String.mk (s.data.map toLowerChar)

def allowedExtensions (ext : String) : Bool :=
  ext = ".mp4" || ext = ".mov" || ext = ".avi" || ext = ".mkv" || ext = ".webm"

structure UploadedFile where
  filename : String
  size : Nat
  bytes : List Nat
deriving DecidableEq, Repr

inductive ValidateErr where
  | fileTooLarge
  | invalidFormat
deriving DecidableEq, Repr

/-- `ValidateVideoFile`: size bounds, extension whitelist, then the magic
check on the first 512 bytes (`file.Read` into a 512-byte buffer yields
the first `min 512 size` bytes of the file). -/
def validateVideoFile (f : UploadedFile) (maxSize : Nat) : Option ValidateErr :=
  if maxSize < f.size then some .fileTooLarge
  else if f.size < 1024 then some .invalidFormat
  else if ¬ allowedExtensions (lowerString (fileExt f.filename)) then some .invalidFormat
  else if isVideoFile (f.bytes.take 512) then none
  else some .invalidFormat

/-! ## Specification-side helper definitions -/

/-- The sequence of progress values the transcode loop persists for a
source of probed height `h`: one value per non-skipped quality. -/
def loopTraceOf (h : Nat) : List Nat :=
  qualityList.enum.filterMap
    (fun p => if h < (qualitySpecs p.2).height then none else some (progressAt p.1))

/-- Concatenation of a list of strings, used to state the shape of the
master manifest. -/
def concatStrings : List String → String
  | [] => ""
  | s :: rest => s ++ concatStrings rest

/-! ## Concrete scenario inputs used to evaluate the model -/

def sampleID : String := "123e4567-e89b-12d3-a456-426614174000"

/-- A freshly uploaded video row for `sampleID`. -/
def sampleVideo : Video :=
  { id := sampleID, filePath := "web/uploads/raw/" ++ sampleID ++ ".mp4",
    status := .uploading, transcodingProgress := 0, availableQualities := [],
    thumbnailPath := none, hlsMasterPath := none, hlsReady := false,
    streamingProtocol := "", duration := 0, originalResolution := "" }

/-- Tool outcomes of a fully successful run on a 1920x1080 source. -/
def happyEnv : ToolEnv :=
  { probe := some ⟨300, 1920, 1080⟩, transcodeOk := fun _ => true,
    hlsOk := fun _ => true, thumbnailOk := true }

/-- Tool outcomes of a run whose probe fails. -/
def probeFailEnv : ToolEnv :=
  { probe := none, transcodeOk := fun _ => false, hlsOk := fun _ => false,
    thumbnailOk := false }

/-- A video whose previous processing attempt failed half way, leaving
transcoding_progress at 50. -/
def failedVideo : Video :=
  { sampleVideo with status := .failed, transcodingProgress := 50 }

/-- The sample video after a successful pipeline run has published HLS. -/
def readyHLSVideo : Video :=
  { sampleVideo with hlsReady := true, hlsMasterPath := some ("/uploads/processed/" ++ sampleID ++ "/hls/master.m3u8") }

/-! ## Generic lemmas about the transcode loop -/

theorem transcodeLoop_trace (env : ToolEnv) (h : Nat) (od : String)
    (l : List (Nat × String)) (acc : LoopAcc) :
    (transcodeLoop env h od l acc).trace
      = acc.trace ++ l.filterMap
          (fun p => if h < (qualitySpecs p.2).height then none else some (progressAt p.1)) := by
  induction l generalizing acc with
  | nil => simp [transcodeLoop]
  | cons p rest ih =>
      obtain ⟨i, q⟩ := p
      rw [transcodeLoop, ih]
      unfold transcodeStep
      by_cases hskip : h < (qualitySpecs q).height
      · simp [hskip]
      · by_cases hok : env.transcodeOk q <;> simp [hskip, hok]

theorem transcodeLoop_transcoded (env : ToolEnv) (h : Nat) (od : String)
    (l : List (Nat × String)) (acc : LoopAcc) :
    (transcodeLoop env h od l acc).transcoded
      = acc.transcoded ++ (l.filter
          (fun p => decide ((qualitySpecs p.2).height ≤ h) && env.transcodeOk p.2)).map Prod.snd := by
  induction l generalizing acc with
  | nil => simp [transcodeLoop]
  | cons p rest ih =>
      obtain ⟨i, q⟩ := p
      rw [transcodeLoop, ih]
      unfold transcodeStep
      by_cases hskip : h < (qualitySpecs q).height
      · have : ¬ (qualitySpecs q).height ≤ h := by omega
        simp [hskip, this]
      · have : (qualitySpecs q).height ≤ h := by omega
        by_cases hok : env.transcodeOk q <;> simp [hskip, hok, this]

theorem transcodeLoop_status (env : ToolEnv) (h : Nat) (od : String)
    (l : List (Nat × String)) (acc : LoopAcc) :
    (transcodeLoop env h od l acc).video.status = acc.video.status := by
  induction l generalizing acc with
  | nil => simp [transcodeLoop]
  | cons p rest ih =>
      obtain ⟨i, q⟩ := p
      rw [transcodeLoop, ih]
      unfold transcodeStep
      by_cases hskip : h < (qualitySpecs q).height
      · simp [hskip]
      · by_cases hok : env.transcodeOk q <;> simp [hskip, hok, updateProgress]

/-- Filtering an enumeration by a predicate on the element alone and
dropping the indices is filtering the underlying list. -/
theorem enumFrom_filter_snd {α : Type} (pred : α → Bool) (l : List α) (n : Nat) :
    ((l.enumFrom n).filter (fun p => pred p.2)).map Prod.snd = l.filter pred := by
  induction l generalizing n with
  | nil => simp
  | cons a rest ih =>
      by_cases ha : pred a <;> simp [List.enumFrom, List.filter, ha, ih]

theorem qualityList_enum :
    qualityList.enum = [(0, "360p"), (1, "480p"), (2, "720p"), (3, "1080p")] := rfl

theorem loopTraceOf_cases (h : Nat) :
    loopTraceOf h = [] ∨ loopTraceOf h = [0] ∨ loopTraceOf h = [0, 16]
      ∨ loopTraceOf h = [0, 16, 33] ∨ loopTraceOf h = [0, 16, 33, 50] := by
  unfold loopTraceOf
  rw [qualityList_enum]
  rcases Nat.lt_or_ge h 360 with h1 | h1
  · have h2 : h < 480 := by omega
    have h3 : h < 720 := by omega
    have h4 : h < 1080 := by omega
    left
    simp [qualitySpecs, progressAt, totalSteps, h1, h2, h3, h4]
  · have h1' : ¬ h < 360 := by omega
    rcases Nat.lt_or_ge h 480 with h2 | h2
    · have h3 : h < 720 := by omega
      have h4 : h < 1080 := by omega
      right; left
      simp [qualitySpecs, progressAt, totalSteps, h1', h2, h3, h4]
    · have h2' : ¬ h < 480 := by omega
      rcases Nat.lt_or_ge h 720 with h3 | h3
      · have h4 : h < 1080 := by omega
        right; right; left
        simp [qualitySpecs, progressAt, totalSteps, h1', h2', h3, h4]
      · have h3' : ¬ h < 720 := by omega
        rcases Nat.lt_or_ge h 1080 with h4 | h4
        · right; right; right; left
          simp [qualitySpecs, progressAt, totalSteps, h1', h2', h3', h4]
        · have h4' : ¬ h < 1080 := by omega
          right; right; right; right
          simp [qualitySpecs, progressAt, totalSteps, h1', h2', h3', h4']

theorem loopTraceOf_chain (h : Nat) : List.Chain' (· ≤ ·) (loopTraceOf h) := by
  rcases loopTraceOf_cases h with hc | hc | hc | hc | hc <;> rw [hc] <;>
    simp [List.chain'_cons]

theorem loopTraceOf_getLast_le (h : Nat) :
    ∀ x ∈ (loopTraceOf h).getLast?, x ≤ 50 := by
  rcases loopTraceOf_cases h with hc | hc | hc | hc | hc <;> rw [hc] <;> simp

theorem transcodeLoop_trace_qualityList (env : ToolEnv) (h : Nat) (od : String)
    (acc : LoopAcc) (hacc : acc.trace = []) :
    (transcodeLoop env h od qualityList.enum acc).trace = loopTraceOf h := by
  rw [transcodeLoop_trace, hacc, List.nil_append, loopTraceOf]

theorem progressAt_four : progressAt 4 = 66 := rfl

theorem progressAt_five : progressAt 5 = 83 := rfl

theorem transcodeLoop_transcoded_qualityList (env : ToolEnv) (h : Nat) (od : String)
    (acc : LoopAcc) (hacc : acc.transcoded = []) :
    (transcodeLoop env h od qualityList.enum acc).transcoded
      = qualityList.filter
          (fun q => decide ((qualitySpecs q).height ≤ h) && env.transcodeOk q) := by
  rw [transcodeLoop_transcoded, hacc, List.nil_append]
  exact enumFrom_filter_snd
    (fun q => decide ((qualitySpecs q).height ≤ h) && env.transcodeOk q) qualityList 0

/-- The HLS stage only keeps qualities it was given, in the given order. -/
theorem hlsLoop_sublist (env : ToolEnv) (tp vid : String) (l : List String) (fs : FS) :
    (hlsLoop env tp vid l fs).2.Sublist l := by
  induction l generalizing fs with
  | nil => simp [hlsLoop]
  | cons q rest ih =>
      unfold hlsLoop
      by_cases hq : env.hlsOk q
      · simpa [hq] using (ih _).cons₂ q
      · simpa [hq] using (ih _).cons q

theorem masterPlaylistBody_eq (tp vid : String) (fs : FS) (qs : List String) :
    masterPlaylistBody tp vid fs qs
      = concatStrings ((includedQualities tp vid qs fs).map streamInfEntry) := by
  induction qs with
  | nil => simp [masterPlaylistBody, includedQualities, concatStrings]
  | cons q rest ih =>
      by_cases hm : variantPlaylistPath tp vid q ∈ fs <;>
        simp [masterPlaylistBody, includedQualities, List.filter, hm, ih, concatStrings]

theorem qualityList_bandwidth_sorted :
    qualityList.Pairwise (fun a b => bandwidthMap a ≤ bandwidthMap b) := by
  simp [qualityList, List.pairwise_cons, bandwidthMap]

/-! ## Lemmas about the magic-byte check -/

theorem bytesMatch_iff (magic : List Nat) :
    ∀ buf : List Nat, bytesMatch magic buf = true ↔ buf.take magic.length = magic := by
  induction magic with
  | nil => intro buf; simp [bytesMatch]
  | cons m ms ih =>
      intro buf
      cases buf with
      | nil => simp [bytesMatch]
      | cons b bs => simp [bytesMatch, ih, List.take, and_comm]

theorem isVideoFile_iff (buf : List Nat) :
    isVideoFile buf = true ↔
      8 ≤ buf.length ∧ (buf.take 8 = videoMagicMp4 ∨ buf.take 4 = videoMagicWebm
        ∨ buf.take 4 = videoMagicAvi) := by
  unfold isVideoFile
  by_cases hlen : buf.length < 8
  · simp only [if_pos hlen]
    constructor
    · intro hcon; exact absurd hcon (by simp)
    · intro ⟨hge, _⟩; omega
  · simp only [if_neg hlen]
    have h8 : (videoMagicMp4).length = 8 := rfl
    have h4w : (videoMagicWebm).length = 4 := rfl
    have h4a : (videoMagicAvi).length = 4 := rfl
    constructor
    · intro hm
      refine ⟨by omega, ?_⟩
      rcases Bool.or_eq_true _ _ |>.mp hm with hor | ha
      · rcases Bool.or_eq_true _ _ |>.mp hor with hmp | hwb
        · exact Or.inl (h8 ▸ (bytesMatch_iff _ _).mp hmp)
        · exact Or.inr (Or.inl (h4w ▸ (bytesMatch_iff _ _).mp hwb))
      · exact Or.inr (Or.inr (h4a ▸ (bytesMatch_iff _ _).mp ha))
    · intro ⟨_, hor⟩
      rcases hor with hmp | hwb | ha
      · exact Bool.or_eq_true _ _ |>.mpr (Or.inl (Bool.or_eq_true _ _ |>.mpr
          (Or.inl ((bytesMatch_iff _ _).mpr (h8 ▸ hmp)))))
      · exact Bool.or_eq_true _ _ |>.mpr (Or.inl (Bool.or_eq_true _ _ |>.mpr
          (Or.inr ((bytesMatch_iff _ _).mpr (h4w ▸ hwb)))))
      · exact Bool.or_eq_true _ _ |>.mpr (Or.inr ((bytesMatch_iff _ _).mpr (h4a ▸ ha)))

/-- The worker wrapper only wraps the error; it does not change the
resulting state, transcoded list or HLS list. -/
theorem processTask_state (env : ToolEnv) (storage : StorageCfg)
    (payload : VideoProcessingPayload) (s : ProcState) :
    (processTask env storage payload s).state
      = (processVideo env storage payload.videoID s).state := by
  unfold processTask
  cases h : (processVideo env storage payload.videoID s).error <;> simp [h]

/-! ## Claim C1 -/

/-- C1: the claimed invariant `hls_ready = true ⇒ the master manifest
exists at the stored/served path` fails on a fully successful run under
the default configuration: the run ends with `hls_ready = true` and
`hls_master_path = /uploads/processed/<id>/hls/master.m3u8`, yet no file
exists at the streaming handler's read path
`web/uploads/processed/<id>/hls/master.m3u8` — the master was written
under the default transcoded-path root
`web/uploads/transcoded/<id>/hls/master.m3u8` instead. -/
theorem c1_hls_ready_without_master_file :
    (processVideo happyEnv defaultStorage sampleID
        ⟨sampleVideo, [sampleVideo.filePath], []⟩).state.video.hlsReady = true
    ∧ (processVideo happyEnv defaultStorage sampleID
        ⟨sampleVideo, [sampleVideo.filePath], []⟩).state.video.hlsMasterPath
        = some ("/uploads/processed/" ++ sampleID ++ "/hls/master.m3u8")
    ∧ (processVideo happyEnv defaultStorage sampleID
        ⟨sampleVideo, [sampleVideo.filePath], []⟩).state.fs.contains
        (serveMasterReadPath sampleID) = false
    ∧ (processVideo happyEnv defaultStorage sampleID
        ⟨sampleVideo, [sampleVideo.filePath], []⟩).state.fs.contains
        (masterPlaylistPath defaultStorage.transcodedPath sampleID) = true := by
  refine ⟨by decide, rfl, by decide, by decide⟩

/-! ## Claim C2 -/

/-- C2: neither processing transition resets the persisted progress to 0.
The admin retry of a failed video at progress 50 returns 200 and moves the
status to `uploading` but leaves transcoding_progress at 50 (the
repository's `UpdateStatus` touches only the status column), while the
domain entity's own `MarkAsProcessing` — which the orchestrator never
calls — would have reset it; and the subsequent processing attempt, when
its probe fails, never writes any progress value, so the stale 50
persists through the whole attempt. -/
theorem c2_retry_leaves_progress_unchanged :
    (retryVideo failedVideo true).httpStatus = 200
    ∧ (retryVideo failedVideo true).video.status = .uploading
    ∧ (retryVideo failedVideo true).video.transcodingProgress = 50
    ∧ failedVideo.markAsProcessing.transcodingProgress = 0
    ∧ (processVideo probeFailEnv defaultStorage sampleID
        ⟨(retryVideo failedVideo true).video, [sampleVideo.filePath], []⟩).state.trace = []
    ∧ (processVideo probeFailEnv defaultStorage sampleID
        ⟨(retryVideo failedVideo true).video,
         [sampleVideo.filePath], []⟩).state.video.transcodingProgress = 50 := by
  refine ⟨by decide, by decide, by decide, by decide, by decide, by decide⟩

/-! ## Claim C3 -/

/-- C3 counterexample: a `video:process` job whose payload requests only
`["720p"]` is processed over the full fixed catalog anyway — the run ends
ready with all four qualities available and with the progress sequence of
a six-step schedule, so the orchestrator does not iterate the requested
list. -/
theorem c3_payload_qualities_ignored :
    (processTask happyEnv defaultStorage
        { videoID := sampleID, qualities := ["720p"], priority := 0 }
        ⟨sampleVideo, [sampleVideo.filePath], []⟩).state.video.availableQualities
      = ["360p", "480p", "720p", "1080p"]
    ∧ (processTask happyEnv defaultStorage
        { videoID := sampleID, qualities := ["720p"], priority := 0 }
        ⟨sampleVideo, [sampleVideo.filePath], []⟩).state.video.availableQualities
      ≠ ["720p"]
    ∧ (processTask happyEnv defaultStorage
        { videoID := sampleID, qualities := ["720p"], priority := 0 }
        ⟨sampleVideo, [sampleVideo.filePath], []⟩).state.trace
      = [0, 16, 33, 50, 66, 83, 100] := by
  refine ⟨by decide, by decide, by decide⟩

/-- C3 amended: the orchestrator ignores the payload's quality list and
always iterates the fixed catalog `["360p","480p","720p","1080p"]` with
`total_steps = 6` (every job this system enqueues carries exactly that
list); within one attempt the persisted progress sequence is
non-decreasing and ends at 100 exactly when the video is marked ready. -/
theorem c3_progress_monotone_fixed_qualities (env : ToolEnv) (storage : StorageCfg)
    (payload : VideoProcessingPayload) (v : Video) (fs : FS)
    (hst : v.status = .uploading ∨ v.status = .failed) :
    (∀ qs' : List String,
        processTask env storage { payload with qualities := qs' } ⟨v, fs, []⟩
          = processTask env storage payload ⟨v, fs, []⟩)
    ∧ List.Chain' (· ≤ ·) (processTask env storage payload ⟨v, fs, []⟩).state.trace
    ∧ ((processTask env storage payload ⟨v, fs, []⟩).state.video.status = .ready
        ↔ (processTask env storage payload ⟨v, fs, []⟩).state.trace.getLast?
            = some 100) := by
  refine ⟨fun qs' => rfl, ?_⟩
  rw [processTask_state]
  have hgate : ¬ (v.status ≠ .uploading ∧ v.status ≠ .failed) := by
    rcases hst with h | h <;> simp [h]
  simp only [processVideo]
  rw [if_neg hgate]
  cases hp : env.probe with
  | none =>
      simp [markAsFailed]
  | some md =>
      simp only []
      have htr := transcodeLoop_trace_qualityList env md.height
        (filepathJoin [storage.transcodedPath, payload.videoID])
        { video := updateResolution (updateDuration (updateStatus v .processing) md.duration)
            (toString md.width ++ "x" ++ toString md.height),
          fs := fs, trace := [], transcoded := [] } rfl
      by_cases he : (transcodeLoop env md.height
          (filepathJoin [storage.transcodedPath, payload.videoID]) qualityList.enum
          { video := updateResolution (updateDuration (updateStatus v .processing) md.duration)
              (toString md.width ++ "x" ++ toString md.height),
            fs := fs, trace := [], transcoded := [] }).transcoded = []
      · rw [if_pos he]
        refine ⟨?_, ?_, ?_⟩
        · simp only [htr]
          exact loopTraceOf_chain md.height
        · intro hcon
          exact absurd hcon (by simp [markAsFailed])
        · intro hcon
          simp only [htr] at hcon
          have := loopTraceOf_getLast_le md.height 100 (by rw [hcon]; rfl)
          omega
      · rw [if_neg he]
        simp only [htr, progressAt_four, progressAt_five]
        constructor
        · have hassoc :
              ((loopTraceOf md.height ++ [66]) ++ [83]) ++ [100]
                = loopTraceOf md.height ++ [66, 83, 100] := by
            simp [List.append_assoc]
          rw [hassoc, List.chain'_append]
          refine ⟨loopTraceOf_chain md.height, by simp [List.chain'_cons], ?_⟩
          intro x hx y hy
          simp at hy
          subst hy
          have := loopTraceOf_getLast_le md.height x hx
          omega
        · simp [markAsReady, updateProgress, List.getLast?_concat]

/-- C3 witness: the amended statement evaluated on the happy-path
scenario. -/
theorem c3_progress_monotone_fixed_qualities_witness :
    (sampleVideo.status = .uploading ∨ sampleVideo.status = .failed)
    ∧ List.Chain' (· ≤ ·) (processTask happyEnv defaultStorage
        { videoID := sampleID, qualities := ["720p"], priority := 0 }
        ⟨sampleVideo, [sampleVideo.filePath], []⟩).state.trace :=
  ⟨Or.inl rfl,
    (c3_progress_monotone_fixed_qualities happyEnv defaultStorage
      { videoID := sampleID, qualities := ["720p"], priority := 0 }
      sampleVideo [sampleVideo.filePath] (Or.inl rfl)).2.1⟩

/-! ## Claim C4 -/

/-- C4: no-upscale.  In any processing attempt the set of transcoded
qualities is exactly the catalog qualities whose target height does not
exceed the probed source height and whose transcode succeeded; hence
every produced quality satisfies source_height ≥ catalog height.  An
under-height quality is skipped by a plain `continue` — the loop moves on
and the only failure the loop can cause is the empty-result check: the
job errors iff no quality at all was transcoded. -/
theorem c4_no_upscale (env : ToolEnv) (storage : StorageCfg) (videoID : String)
    (v : Video) (fs : FS) (md : VideoMetadata)
    (hst : v.status = .uploading ∨ v.status = .failed)
    (hp : env.probe = some md) :
    (processVideo env storage videoID ⟨v, fs, []⟩).transcoded
        = qualityList.filter
            (fun q => decide ((qualitySpecs q).height ≤ md.height) && env.transcodeOk q)
    ∧ (∀ q ∈ (processVideo env storage videoID ⟨v, fs, []⟩).transcoded,
          (qualitySpecs q).height ≤ md.height)
    ∧ ((processVideo env storage videoID ⟨v, fs, []⟩).error = none
        ↔ (processVideo env storage videoID ⟨v, fs, []⟩).transcoded ≠ []) := by
  have hgate : ¬ (v.status ≠ .uploading ∧ v.status ≠ .failed) := by
    rcases hst with h | h <;> simp [h]
  simp only [processVideo]
  rw [if_neg hgate, hp]
  simp only []
  have htc := transcodeLoop_transcoded_qualityList env md.height
    (filepathJoin [storage.transcodedPath, videoID])
    { video := updateResolution (updateDuration (updateStatus v .processing) md.duration)
        (toString md.width ++ "x" ++ toString md.height),
      fs := fs, trace := [], transcoded := [] } rfl
  by_cases he : (transcodeLoop env md.height
      (filepathJoin [storage.transcodedPath, videoID]) qualityList.enum
      { video := updateResolution (updateDuration (updateStatus v .processing) md.duration)
          (toString md.width ++ "x" ++ toString md.height),
        fs := fs, trace := [], transcoded := [] }).transcoded = []
  · rw [if_pos he]
    refine ⟨(htc.symm.trans he).symm, by simp, by simp⟩
  · rw [if_neg he]
    refine ⟨htc, ?_, by simp [he]⟩
    intro q hq
    rw [htc] at hq
    have := (List.mem_filter.mp hq).2
    simp only [Bool.and_eq_true, decide_eq_true_eq] at this
    exact this.1

/-- C4 witness: the no-upscale theorem evaluated on the happy-path
scenario (1080-high source, all transcodes succeed). -/
theorem c4_no_upscale_witness :
    (sampleVideo.status = .uploading ∨ sampleVideo.status = .failed)
    ∧ happyEnv.probe = some ⟨300, 1920, 1080⟩
    ∧ ∀ q ∈ (processVideo happyEnv defaultStorage sampleID
        ⟨sampleVideo, [sampleVideo.filePath], []⟩).transcoded,
        (qualitySpecs q).height ≤ (1080 : Nat) :=
  ⟨Or.inl rfl, rfl,
    (c4_no_upscale happyEnv defaultStorage sampleID sampleVideo
      [sampleVideo.filePath] ⟨300, 1920, 1080⟩ (Or.inl rfl) rfl).2.1⟩

/-! ## Claim C5 -/

set_option maxRecDepth 10000 in
/-- C5 counterexample: the master-manifest writer emits the qualities in
the order of its argument list, not in ascending bandwidth order — called
with `["1080p", "360p"]` (both variant playlists on disk) it writes the
5000000-bandwidth entry before the 800000 one. -/
theorem c5_master_not_bandwidth_sorted :
    includedQualities defaultStorage.transcodedPath "v" ["1080p", "360p"]
        [variantPlaylistPath defaultStorage.transcodedPath "v" "1080p",
         variantPlaylistPath defaultStorage.transcodedPath "v" "360p"]
      = ["1080p", "360p"]
    ∧ generateMasterPlaylistContent defaultStorage.transcodedPath "v" ["1080p", "360p"]
        [variantPlaylistPath defaultStorage.transcodedPath "v" "1080p",
         variantPlaylistPath defaultStorage.transcodedPath "v" "360p"]
      = "#EXTM3U\n#EXT-X-VERSION:3\n#EXT-X-STREAM-INF:BANDWIDTH=5000000,RESOLUTION=1920x1080\n1080p/playlist.m3u8\n#EXT-X-STREAM-INF:BANDWIDTH=800000,RESOLUTION=640x360\n360p/playlist.m3u8\n"
    ∧ ¬ (["1080p", "360p"] : List String).Pairwise
          (fun a b => bandwidthMap a ≤ bandwidthMap b) := by
  refine ⟨by decide, by decide, ?_⟩
  intro hcon
  have := (List.pairwise_cons.mp hcon).1 "360p" (by simp)
  simp [bandwidthMap] at this

/-- C5 amended: the produced master is exactly the two header lines
followed by, for each quality of the argument list whose variant playlist
exists on disk, in the order of that list, the catalog
BANDWIDTH/RESOLUTION line and the variant URI; a bandwidth-sorted
argument yields a bandwidth-sorted master, and the pipeline always passes
its accumulated HLS qualities in catalog order, which is ascending
bandwidth. -/
theorem c5_master_content_characterization (tp vid : String) (qs : List String) (fs : FS) :
    generateMasterPlaylistContent tp vid qs fs
      = "#EXTM3U\n" ++ "#EXT-X-VERSION:3\n" ++
          concatStrings ((includedQualities tp vid qs fs).map streamInfEntry)
    ∧ (qs.Pairwise (fun a b => bandwidthMap a ≤ bandwidthMap b) →
        (includedQualities tp vid qs fs).Pairwise
          (fun a b => bandwidthMap a ≤ bandwidthMap b))
    ∧ ∀ (env : ToolEnv) (storage : StorageCfg) (videoID : String) (s : ProcState),
        ((processVideo env storage videoID s).hlsQualities).Pairwise
          (fun a b => bandwidthMap a ≤ bandwidthMap b) := by
  refine ⟨?_, ?_, ?_⟩
  · unfold generateMasterPlaylistContent
    rw [masterPlaylistBody_eq]
  · intro hqs
    exact List.Pairwise.sublist (List.filter_sublist qs) hqs
  · intro env storage videoID s
    simp only [processVideo]
    by_cases hgate : (s.video.status ≠ .uploading ∧ s.video.status ≠ .failed)
    · rw [if_pos hgate]
      simp
    · rw [if_neg hgate]
      cases hp : env.probe with
      | none => simp
      | some md =>
          simp only []
          have htc := transcodeLoop_transcoded_qualityList env md.height
            (filepathJoin [storage.transcodedPath, videoID])
            { video := updateResolution
                (updateDuration (updateStatus s.video .processing) md.duration)
                (toString md.width ++ "x" ++ toString md.height),
              fs := s.fs, trace := s.trace, transcoded := [] } rfl
          by_cases he : (transcodeLoop env md.height
              (filepathJoin [storage.transcodedPath, videoID]) qualityList.enum
              { video := updateResolution
                  (updateDuration (updateStatus s.video .processing) md.duration)
                  (toString md.width ++ "x" ++ toString md.height),
                fs := s.fs, trace := s.trace, transcoded := [] }).transcoded = []
          · rw [if_pos he]
            simp
          · rw [if_neg he]
            have hsub1 := hlsLoop_sublist env storage.transcodedPath videoID
              (transcodeLoop env md.height
                (filepathJoin [storage.transcodedPath, videoID]) qualityList.enum
                { video := updateResolution
                    (updateDuration (updateStatus s.video .processing) md.duration)
                    (toString md.width ++ "x" ++ toString md.height),
                  fs := s.fs, trace := s.trace, transcoded := [] }).transcoded
              (transcodeLoop env md.height
                (filepathJoin [storage.transcodedPath, videoID]) qualityList.enum
                { video := updateResolution
                    (updateDuration (updateStatus s.video .processing) md.duration)
                    (toString md.width ++ "x" ++ toString md.height),
                  fs := s.fs, trace := s.trace, transcoded := [] }).fs
            have hsub2 := htc ▸ List.filter_sublist (l := qualityList)
              (p := fun q => decide ((qualitySpecs q).height ≤ md.height) && env.transcodeOk q)
            exact List.Pairwise.sublist (hsub1.trans hsub2) qualityList_bandwidth_sorted

/-- C5 witness: the characterization applied to a bandwidth-sorted input
list with both variant playlists present. -/
theorem c5_master_content_characterization_witness :
    (["360p", "1080p"] : List String).Pairwise
        (fun a b => bandwidthMap a ≤ bandwidthMap b)
    ∧ (includedQualities defaultStorage.transcodedPath "v" ["360p", "1080p"]
        [variantPlaylistPath defaultStorage.transcodedPath "v" "360p",
         variantPlaylistPath defaultStorage.transcodedPath "v" "1080p"]).Pairwise
        (fun a b => bandwidthMap a ≤ bandwidthMap b) :=
  ⟨by simp [List.pairwise_cons, bandwidthMap],
   (c5_master_content_characterization defaultStorage.transcodedPath "v"
      ["360p", "1080p"]
      [variantPlaylistPath defaultStorage.transcodedPath "v" "360p",
       variantPlaylistPath defaultStorage.transcodedPath "v" "1080p"]).2.1
     (by simp [List.pairwise_cons, bandwidthMap])⟩

/-! ## Claim C6 -/

/-- C6 counterexample: for a video already in `processing`, the handler
rejects the job without touching the record, but the returned error is an
ordinary wrapped `fmt.Errorf` — not the `asynq.SkipRetry` sentinel — so
the worker treats it as retryable and re-enqueues the job. -/
theorem c6_reject_error_is_retryable :
    (processTask happyEnv defaultStorage
        { videoID := sampleID, qualities := qualityList, priority := 0 }
        ⟨{ sampleVideo with status := .processing }, [sampleVideo.filePath], []⟩).state
      = ⟨{ sampleVideo with status := .processing }, [sampleVideo.filePath], []⟩
    ∧ ((processTask happyEnv defaultStorage
        { videoID := sampleID, qualities := qualityList, priority := 0 }
        ⟨{ sampleVideo with status := .processing },
         [sampleVideo.filePath], []⟩).error).map isSkipRetry = some false := by
  refine ⟨by decide, by decide⟩

/-- C6 amended: for every video whose status is neither `uploading` nor
`failed`, the `video:process` handler returns without modifying the
record, and the error it returns is a wrapped formatted error that does
not satisfy the worker's SkipRetry check, i.e. the job remains subject to
the ordinary retry policy. -/
theorem c6_reject_without_mutation (env : ToolEnv) (storage : StorageCfg)
    (payload : VideoProcessingPayload) (s : ProcState)
    (h1 : s.video.status ≠ .uploading) (h2 : s.video.status ≠ .failed) :
    (processTask env storage payload s).state = s
    ∧ ((processTask env storage payload s).error).map isSkipRetry = some false := by
  have hrun : processVideo env storage payload.videoID s
      = { state := s, transcoded := [], hlsQualities := [],
          error := some (.fmtError "video status is not uploading or failed" none) } := by
    simp only [processVideo]
    rw [if_pos ⟨h1, h2⟩]
  unfold processTask
  rw [hrun]
  simp [isSkipRetry]

/-- C6 witness: the rejection theorem evaluated on a `ready` video. -/
theorem c6_reject_without_mutation_witness :
    ({ sampleVideo with status := .ready } : Video).status ≠ VideoStatus.uploading
    ∧ (processTask happyEnv defaultStorage
        { videoID := sampleID, qualities := qualityList, priority := 1 }
        ⟨{ sampleVideo with status := .ready }, [], []⟩).state
      = ⟨{ sampleVideo with status := .ready }, [], []⟩ :=
  ⟨by decide,
   (c6_reject_without_mutation happyEnv defaultStorage
      { videoID := sampleID, qualities := qualityList, priority := 1 }
      ⟨{ sampleVideo with status := .ready }, [], []⟩
      (by decide) (by decide)).1⟩

/-! ## Claim C7 -/

/-- C7: serving the master manifest of an HLS-ready video: a non-empty
cached value under `playlist:<id>:master` is served as-is; on a miss the
manifest is read from the handler's disk path, stored in the cache with a
3600-second TTL when the store succeeds, and served; and the response is
the same whether the cache store succeeds or fails — a cache write
failure never fails a request whose disk read succeeded. -/
theorem c7_master_cache_read_path (video : Video) (vid : String) (cache : Cache)
    (fsContent : String → Option String) (setOk : Bool)
    (hready : video.hlsReady = true) (hpath : video.hlsMasterPath ≠ none) :
    (∀ t, cacheGet cache (masterCacheKey vid) = some t → t ≠ "" →
        serveMasterPlaylist (some video) vid cache fsContent setOk
          = (servePlaylistContent t, cache))
    ∧ (∀ content, cacheGet cache (masterCacheKey vid) = none →
        fsContent (serveMasterReadPath vid) = some content →
        serveMasterPlaylist (some video) vid cache fsContent setOk
          = (servePlaylistContent content,
             if setOk then cacheSet cache (masterCacheKey vid) content 3600 else cache))
    ∧ (serveMasterPlaylist (some video) vid cache fsContent true).1
        = (serveMasterPlaylist (some video) vid cache fsContent false).1 := by
  have hg : ¬ (video.hlsReady = false ∨ video.hlsMasterPath = none) := by
    simp [hready, hpath]
  refine ⟨?_, ?_, ?_⟩
  · intro t ht hne
    simp only [serveMasterPlaylist]
    rw [if_neg hg, ht]
    simp [hne]
  · intro content hmiss hfile
    simp only [serveMasterPlaylist]
    rw [if_neg hg, hmiss]
    simp only [serveMasterFromDisk]
    rw [hfile]
  · simp only [serveMasterPlaylist, if_neg hg]
    cases hc : cacheGet cache (masterCacheKey vid) with
    | some t =>
        by_cases hne : t = ""
        · subst hne
          simp only [ne_eq, not_true_eq_false, if_false]
          cases hf : fsContent (serveMasterReadPath vid) <;>
            simp [serveMasterFromDisk, hf]
        · simp [hne]
    | none =>
        cases hf : fsContent (serveMasterReadPath vid) <;>
          simp [serveMasterFromDisk, hf]

/-- C7 witness: a cache miss with a failing cache store still serves the
on-disk manifest with status 200. -/
theorem c7_master_cache_read_path_witness :
    cacheGet ([] : Cache) (masterCacheKey sampleID) = none
    ∧ serveMasterPlaylist (some readyHLSVideo) sampleID []
        (fun p => if p = serveMasterReadPath sampleID then some "#EXTM3U\n" else none)
        false
      = (servePlaylistContent "#EXTM3U\n", []) := by
  refine ⟨rfl, ?_⟩
  have h := (c7_master_cache_read_path readyHLSVideo sampleID []
    (fun p => if p = serveMasterReadPath sampleID then some "#EXTM3U\n" else none)
    false rfl (by simp [readyHLSVideo])).2.1 "#EXTM3U\n" rfl (by simp)
  simpa using h

/-! ## Claim C8 -/

/-- C8: queue selection and retry policy of the two enqueue operations:
`video:process` goes to `critical` when priority ≥ 2, to `low` when
priority ≤ −1 and to `default` otherwise, always with 3 max retries and a
3600-second timeout; `video:thumbnail` always goes to `default` with 2
max retries and a 300-second timeout. -/
theorem c8_enqueue_policies (vid : String) (p : Int) :
    ((2 ≤ p → (enqueueVideoProcessing vid p).queue = "critical")
      ∧ (p ≤ -1 → (enqueueVideoProcessing vid p).queue = "low")
      ∧ (-1 < p → p < 2 → (enqueueVideoProcessing vid p).queue = "default"))
    ∧ (enqueueVideoProcessing vid p).maxRetry = 3
    ∧ (enqueueVideoProcessing vid p).timeoutSeconds = 3600
    ∧ (enqueueThumbnailGeneration vid).queue = "default"
    ∧ (enqueueThumbnailGeneration vid).maxRetry = 2
    ∧ (enqueueThumbnailGeneration vid).timeoutSeconds = 300 := by
  have hq : (enqueueVideoProcessing vid p).queue = getQueueName p := rfl
  refine ⟨⟨?_, ?_, ?_⟩, rfl, rfl, rfl, rfl, rfl⟩
  · intro h
    rw [hq]
    unfold getQueueName
    rw [if_pos (by omega : p ≥ 2)]
  · intro h
    rw [hq]
    unfold getQueueName
    rw [if_neg (by omega : ¬ p ≥ 2), if_pos h]
  · intro hlow hhigh
    rw [hq]
    unfold getQueueName
    rw [if_neg (by omega : ¬ p ≥ 2), if_neg (by omega : ¬ p ≤ -1)]

/-- C8 witness: the three queue tiers at priorities 2, −1 and 0. -/
theorem c8_enqueue_policies_witness :
    (enqueueVideoProcessing "v" 2).queue = "critical"
    ∧ (enqueueVideoProcessing "v" (-1)).queue = "low"
    ∧ (enqueueVideoProcessing "v" 0).queue = "default" :=
  ⟨(c8_enqueue_policies "v" 2).1.1 (by norm_num),
   (c8_enqueue_policies "v" (-1)).1.2.1 (by norm_num),
   (c8_enqueue_policies "v" 0).1.2.2 (by norm_num) (by norm_num)⟩

/-! ## Claim C9 -/

set_option maxRecDepth 10000 in
/-- C9 counterexample: an mp4 upload whose first 512 bytes contain the
`ftyp` signature (at offset 4, preceded by the common box size 0x20) with
an allowed extension and a size within bounds is rejected — the check
only compares fixed prefixes at offset 0, and its mp4 prefix hardcodes
the box size 0x18. -/
theorem c9_ftyp_within_window_rejected :
    ((([0x00, 0x00, 0x00, 0x20, 0x66, 0x74, 0x79, 0x70, 0x6D, 0x70, 0x34, 0x32]
        ++ List.replicate 1012 0 : List Nat).take 512).drop 4).take 4
      = [0x66, 0x74, 0x79, 0x70]
    ∧ allowedExtensions (lowerString (fileExt "video.mp4")) = true
    ∧ (1024 : Nat) ≤ 2 * 1024 * 1024 * 1024
    ∧ validateVideoFile
        { filename := "video.mp4", size := 1024,
          bytes := [0x00, 0x00, 0x00, 0x20, 0x66, 0x74, 0x79, 0x70, 0x6D, 0x70, 0x34, 0x32]
            ++ List.replicate 1012 0 }
        (2 * 1024 * 1024 * 1024) = some .invalidFormat := by
  refine ⟨by decide, by decide, by decide, by decide⟩

/-- C9 amended: the validator accepts a file iff its size is within
[1024, maxSize], its lowercased extension is allowed, and its content
starts — at offset 0 — with one of three exact byte prefixes: the 24-byte
mp4 `ftyp` box header 00 00 00 18 66 74 79 70, the webm EBML magic, or
the AVI RIFF magic (buffers shorter than 8 bytes always fail). -/
theorem c9_magic_check_exact_prefixes (f : UploadedFile) (maxSize : Nat) :
    validateVideoFile f maxSize = none ↔
      f.size ≤ maxSize ∧ 1024 ≤ f.size
      ∧ allowedExtensions (lowerString (fileExt f.filename)) = true
      ∧ 8 ≤ f.bytes.length
      ∧ (f.bytes.take 8 = videoMagicMp4 ∨ f.bytes.take 4 = videoMagicWebm
          ∨ f.bytes.take 4 = videoMagicAvi) := by
  have htake8 : (f.bytes.take 512).take 8 = f.bytes.take 8 := by
    rw [List.take_take]
    norm_num
  have htake4 : (f.bytes.take 512).take 4 = f.bytes.take 4 := by
    rw [List.take_take]
    norm_num
  have hlen : (f.bytes.take 512).length = min 512 f.bytes.length :=
    List.length_take 512 f.bytes
  unfold validateVideoFile
  by_cases h1 : maxSize < f.size
  · rw [if_pos h1]
    exact iff_of_false (by simp) (fun hr => absurd hr.1 (by omega))
  · rw [if_neg h1]
    by_cases h2 : f.size < 1024
    · rw [if_pos h2]
      exact iff_of_false (by simp) (fun hr => absurd hr.2.1 (by omega))
    · rw [if_neg h2]
      by_cases h3 : allowedExtensions (lowerString (fileExt f.filename)) = true
      · rw [if_neg (not_not_intro h3)]
        by_cases h4 : isVideoFile (f.bytes.take 512) = true
        · rw [if_pos h4]
          obtain ⟨hl, hm⟩ := (isVideoFile_iff (f.bytes.take 512)).mp h4
          rw [htake8, htake4] at hm
          rw [hlen] at hl
          exact iff_of_true rfl ⟨by omega, by omega, h3, by omega, hm⟩
        · rw [if_neg h4]
          refine iff_of_false (by simp) ?_
          intro hr
          apply h4
          refine (isVideoFile_iff (f.bytes.take 512)).mpr ⟨?_, ?_⟩
          · rw [hlen]
            have := hr.2.2.2.1
            omega
          · rw [htake8, htake4]
            exact hr.2.2.2.2
      · rw [if_pos h3]
        exact iff_of_false (by simp) (fun hr => absurd hr.2.2.1 h3)

/-! ## Claim C10 -/

/-- C10: when the upload service succeeds (the file is stored and the row
is created with status `uploading`) but enqueueing the `video:process`
job fails, the endpoint still responds 201 Created with the video's data,
and no task reaches the queue. -/
theorem c10_upload_enqueue_failure_still_created (video : Video) (id filePath : String) :
    uploadEndpoint (.ok video) false
      = ({ httpStatus := 201, errorCode := none, videoID := some video.id }, [])
    ∧ (uploadServiceRow id filePath).status = .uploading :=
  ⟨rfl, rfl⟩

end VideoStreaming
